import Mathlib

/-!
Verification of the image storage and annotation service
(Express + sharp + MySQL, main handler file `src/index.js` of the service).

The development shallowly embeds the annotate / replace request handlers and
the inline SVG overlay renderer.  JavaScript's dynamically typed request
fields are modelled by `JVal` (null/undefined, number, string) together with
JS truthiness; the MySQL `images` table is modelled by a list of records plus
an auto-increment counter; the `sharp` image library (metadata probing,
compositing, PNG re-encoding) is an external capability modelled by function
parameters in `Env`.
-/

namespace ImageService

/-- A JavaScript value as it can occur in the JSON fields of an annotation
request: `null` covers both JSON `null` and an absent property (`undefined`);
numbers are modelled by integers (no claim involves fractional or NaN field
values); strings are Lean strings. -/
inductive JVal where
  | null : JVal
  | num : Int → JVal
  | str : String → JVal
deriving DecidableEq, Repr

/-- JavaScript truthiness of a `JVal`: `null`/`undefined`, `0` and `""` are
falsy, everything else is truthy. -/
def truthy : JVal → Bool
  | JVal.null => false
  | JVal.num n => n != 0
  | JVal.str s => s != ""

/-- JavaScript template-literal stringification of a `JVal` (used for the
interpolations in the handler's SVG strings). -/
def jstr : JVal → String
  | JVal.null => ("undefined")
  | JVal.num n => toString n
  | JVal.str s => s

/-- Translation of JS `a || b`: `b` when `a` is falsy, otherwise `a`.  This
is the default operator used in the handler for `color`, `width`,
`fontSize`. -/
def jsOr (a b : JVal) : JVal :=
  if truthy a then a else b

/-- Translation of JS `a ?? b`: `b` when `a` is null/undefined, otherwise
`a`.  This is the default operator used in the handler for the text
coordinates `x` and `y`. -/
def jsNullish (a b : JVal) : JVal :=
  if a = JVal.null then b else a

/-- Translation of JS `s || null` on an optional string (used for
`original.originalName || null` in the annotate handler): an absent or empty
string becomes `none`. -/
def jsStrOrNull : Option String → Option String
  | none => none
  | some s => if s = "" then none else some s

/-! ### Text escaping

The handler escapes text labels with
`String(t.text).replace(/&/g, "&amp;").replace(/</g, "&lt;")`:
two sequential global single-character replacements.  A global replacement of
a one-character pattern is, character by character, a flat-map over the
string's characters. -/

/-- One global single-character replacement pass, as performed by
`.replace(/c/g, rep)` for a single-character pattern `c`. -/
def replacePass (pat : Char) (rep : List Char) (l : List Char) : List Char :=
  l.flatMap (fun c => if c = pat then rep else [c])

/-- The handler's escaping of text content, on character lists: first every
`&` becomes `&amp;`, then every `<` becomes `&lt;`. -/
def escapeChars (l : List Char) : List Char :=
  replacePass '<' "&lt;".data (replacePass '&' "&amp;".data l)

/-- The handler's escaping of text content, on strings (the `escaped`
local of the annotate handler, applied to `String(t.text)`). -/
def escapeString (s : String) : String :=
  String.mk (escapeChars s.data)

/-! ### Annotation request payloads -/

/-- One point of a stroke; the handler interpolates `p.x` and `p.y` without
validation, so the coordinates are arbitrary `JVal`s. -/
structure Point where
  x : JVal
  y : JVal
deriving DecidableEq, Repr

/-- One stroke of the request body.  `points` is `none` when the `points`
property is absent/null (so `!stroke?.points` is truthy and the stroke is
skipped); `color` and `width` default through `||` when falsy. -/
structure Stroke where
  points : Option (List Point)
  color : JVal
  width : JVal
deriving DecidableEq, Repr

/-- One text label of the request body. -/
structure TextLabel where
  x : JVal
  y : JVal
  text : JVal
  color : JVal
  fontSize : JVal
deriving DecidableEq, Repr

/-- The annotate request body.  A list entry `none` models a `null` element
of the JSON array (skipped via `stroke?.points` / `t?.text`); a field value
`none` models an absent or non-array `strokes`/`texts` property, which the
handler turns into `[]` via `Array.isArray(body.strokes) ? body.strokes : []`. -/
structure Body where
  strokes : Option (List (Option Stroke))
  texts : Option (List (Option TextLabel))
deriving Repr

/-- Translation of `Array.isArray(body.strokes) ? body.strokes : []`. -/
def strokesOf (b : Body) : List (Option Stroke) :=
  match b.strokes with
  | some l => l
  | none => []

/-- Translation of `Array.isArray(body.texts) ? body.texts : []`. -/
def textsOf (b : Body) : List (Option TextLabel) :=
  match b.texts with
  | some l => l
  | none => []

/-! ### The SVG overlay renderer (inline in the annotate handler) -/

/-- Translation of JS `Array.prototype.join(sep)`. -/
def joinSep (sep : String) : List String → String
  | [] => ("")
  | [a] => a
  | a :: rest => a ++ sep ++ joinSep sep rest

/-- Interpolation of one point into the path's `d` string: `x y`. -/
def pointStr (p : Point) : String :=
  jstr p.x ++ " " ++ jstr p.y

/-- The `d` attribute of a stroke's path:
`"M " + points.map((p, i) => i === 0 ? "x y" : "L x y").join(" ")`. -/
def dString (ps : List Point) : String :=
  "M " ++ joinSep (" ")
    (ps.enum.map (fun pi => if pi.1 = 0 then pointStr pi.2 else "L " ++ pointStr pi.2))

/-- The `<path …/>` element pushed for a stroke with point list `ps`. -/
def pathElem (s : Stroke) (ps : List Point) : String :=
  "<path d=\"" ++ dString ps ++ "\" fill=\"none\" stroke=\"" ++
    jstr (jsOr s.color (JVal.str ("#ff0000"))) ++ "\" stroke-width=\"" ++
    jstr (jsOr s.width (JVal.num 4)) ++
    "\" stroke-linecap=\"round\" stroke-linejoin=\"round\" />"

/-- The `<text …>…</text>` element pushed for a text label. -/
def textElem (t : TextLabel) : String :=
  "<text x=\"" ++ jstr (jsNullish t.x (JVal.num 20)) ++ "\" y=\"" ++
    jstr (jsNullish t.y (JVal.num 20)) ++ "\" fill=\"" ++
    jstr (jsOr t.color (JVal.str ("#00ff00"))) ++ "\" font-size=\"" ++
    jstr (jsOr t.fontSize (JVal.num 24)) ++
    "\" font-family=\"Arial, sans-serif\">" ++
    escapeString (jstr t.text) ++ "</text>"

/-- The loop `for (const stroke of strokes) { if (!stroke?.points ||
stroke.points.length < 2) continue; … svg.push(<path …/>) }`. -/
def strokeElems : List (Option Stroke) → List String
  | [] => []
  | none :: rest => strokeElems rest
  | some s :: rest =>
    match s.points with
    | none => strokeElems rest
    | some ps =>
      if ps.length < 2 then strokeElems rest
      else pathElem s ps :: strokeElems rest

/-- The loop `for (const t of texts) { if (!t?.text) continue;
… svg.push(<text …>…</text>) }`. -/
def textElems : List (Option TextLabel) → List String
  | [] => []
  | none :: rest => textElems rest
  | some t :: rest =>
    if truthy t.text then textElem t :: textElems rest
    else textElems rest

/-- The opening `<svg …>` root element, with width/height/viewBox
interpolated. -/
def svgHeader (w h : Nat) : String :=
  "<svg width=\"" ++ toString w ++ "\" height=\"" ++ toString h ++
    "\" viewBox=\"0 0 " ++ toString w ++ " " ++ toString h ++
    "\" xmlns=\"http://www.w3.org/2000/svg\">"

/-- The full `svg` array built by the annotate handler: root element, then
the stroke paths in request order, then the text elements in request order,
then the closing tag. -/
def renderSvg (w h : Nat) (strokes : List (Option Stroke))
    (texts : List (Option TextLabel)) : List String :=
  [svgHeader w h] ++ strokeElems strokes ++ textElems texts ++ ["</svg>"]

/-- Translation of `meta.width || 1024` / `meta.height || 768`: a sharp
metadata dimension is a number or `undefined`, and `||` also replaces a
(pathological) `0`. -/
def dimOr (d : Option Nat) (fallback : Nat) : Nat :=
  match d with
  | none => fallback
  | some n => if n = 0 then fallback else n

/-! ### The image record store (MySQL `images` table) -/

/-- Stored image bytes, modelled as a byte list. -/
abbrev Bytes := List Nat

/-- One row of the `images` table. -/
structure ImageRecord where
  id : Nat
  content_type : String
  original_name : Option String
  data : Bytes
  original_image_id : Option Int
deriving DecidableEq, Repr

/-- The `images` table: its rows plus the auto-increment counter that yields
the next `insertId`. -/
structure Store where
  images : List ImageRecord
  nextId : Nat
deriving DecidableEq, Repr

/-- Translation of `SELECT … FROM images WHERE id = ?`: the row whose id
equals the (finite, possibly negative) numeric request parameter. -/
def findImg (st : Store) (i : Int) : Option ImageRecord :=
  st.images.find? (fun r => (r.id : Int) == i)

/-- Translation of `INSERT INTO images … VALUES (…)`: appends a row under
the next auto-increment id and returns that `insertId`. -/
def insertImg (st : Store) (ct : String) (name : Option String) (d : Bytes)
    (parent : Option Int) : Store × Nat :=
  (⟨st.images ++ [⟨st.nextId, ct, name, d, parent⟩], st.nextId + 1⟩, st.nextId)

/-- Translation of `UPDATE images SET content_type = ?, data = ?,
original_name = ? WHERE id = ?`: rewrites the matching rows in place; `id`
and `original_image_id` are not touched. -/
def updateImg (st : Store) (i : Int) (ct : String) (d : Bytes)
    (name : Option String) : Store :=
  ⟨st.images.map (fun r =>
      if (r.id : Int) == i then
        { r with content_type := ct, data := d, original_name := name }
      else r),
    st.nextId⟩

/-! ### External capabilities (the sharp library and DB write outcome) -/

/-- Image metadata as probed by `sharp(bytes).metadata()`: dimensions may be
absent. -/
structure Meta where
  width : Option Nat
  height : Option Nat
deriving DecidableEq, Repr

/-- The external capabilities the handlers await: `metadata` models
`sharp(bytes).metadata()`, `composite` models
`sharp(bytes).composite([{input: svgBuffer}]).png().toBuffer()` (taking the
overlay document text), `encode` models `sharp(bytes).png().toBuffer()`.
A result of `none` models the promise rejecting, which lands in the
handler's `catch`.  `dbWriteOk = false` models the INSERT/UPDATE statement
throwing. -/
structure Env where
  metadata : Bytes → Option Meta
  composite : Bytes → String → Option Bytes
  encode : Bytes → Option Bytes
  dbWriteOk : Bool

/-- Translation of `Number(req.params.id)` together with the
`Number.isFinite` check: either not a finite number, or a (model-integral)
numeric id. -/
inductive NumParam where
  | nan : NumParam
  | num : Int → NumParam
deriving DecidableEq, Repr

/-- The uploaded file of a PUT replace request (`req.file`): its buffer and
its `originalname`. -/
structure UploadFile where
  buffer : Bytes
  originalname : Option String
deriving DecidableEq, Repr

/-! ### The annotate handler (`POST /api/images/:id/annotate`) -/

/-- The annotate handler's HTTP outcome. -/
inductive AnnotateResp where
  | badRequest (message : String)
  | notFound (message : String)
  | created (id : Nat) (url : String) (originalImageId : Int)
  | serverError (message : String)
deriving DecidableEq, Repr

/-- Whether an annotate outcome is the 201 success response. -/
def AnnotateResp.isCreated : AnnotateResp → Bool
  | AnnotateResp.created _ _ _ => true
  | _ => false

/-- The overlay document string handed to the compositor:
`Buffer.from(svg.join(""), "utf-8")`, with the canvas dimensions
`meta.width || 1024` and `meta.height || 768`. -/
def overlayString (meta : Meta) (strokes : List (Option Stroke))
    (texts : List (Option TextLabel)) : String :=
  String.join (renderSvg (dimOr meta.width 1024) (dimOr meta.height 768) strokes texts)

/-- The `POST /api/images/:id/annotate` handler: validate the id, read the
source row, probe metadata, render the overlay, composite, insert the derived
row, answer 201; any rejected step is caught and answered 500 with the store
untouched. -/
def annotate (env : Env) (st : Store) (idParam : NumParam) (body : Body) :
    Store × AnnotateResp :=
  match idParam with
  | NumParam.nan => (st, AnnotateResp.badRequest ("Invalid image id"))
  | NumParam.num originalId =>
    let strokes := strokesOf body
    let texts := textsOf body
    match findImg st originalId with
    | none => (st, AnnotateResp.notFound ("Image not found"))
    | some original =>
      match env.metadata original.data with
      | none => (st, AnnotateResp.serverError ("Failed to annotate image"))
      | some meta =>
        match env.composite original.data (overlayString meta strokes texts) with
        | none => (st, AnnotateResp.serverError ("Failed to annotate image"))
        | some annotatedBuffer =>
          if env.dbWriteOk then
            let ins := insertImg st ("image/png") (jsStrOrNull original.original_name)
              annotatedBuffer (some originalId)
            (ins.1, AnnotateResp.created ins.2
              ("/api/images/" ++ toString ins.2 ++ "/raw") originalId)
          else (st, AnnotateResp.serverError ("Failed to annotate image"))

/-! ### The replace handler (`PUT /api/images/:id`) -/

/-- The replace handler's HTTP outcome; `ok` is the 200
`{id, url, updated: true}` response. -/
inductive ReplaceResp where
  | badRequest (message : String)
  | notFound (message : String)
  | ok (id : Int) (url : String)
  | serverError (message : String)
deriving DecidableEq, Repr

/-- The `PUT /api/images/:id` handler: validate id and file, confirm the row
exists, re-encode the upload to PNG, overwrite the row in place
(`req.file.originalname || "edited.png"` supplies the stored name). -/
def replaceImg (env : Env) (st : Store) (idParam : NumParam)
    (file : Option UploadFile) : Store × ReplaceResp :=
  match idParam with
  | NumParam.nan => (st, ReplaceResp.badRequest ("Invalid image id"))
  | NumParam.num i =>
    match file with
    | none => (st, ReplaceResp.badRequest ("No file uploaded"))
    | some f =>
      match findImg st i with
      | none => (st, ReplaceResp.notFound ("Image not found"))
      | some _ =>
        match env.encode f.buffer with
        | none => (st, ReplaceResp.serverError ("Failed to replace image"))
        | some pngBuffer =>
          if env.dbWriteOk then
            (updateImg st i ("image/png") pngBuffer
                (some ((jsStrOrNull f.originalname).getD ("edited.png"))),
              ReplaceResp.ok i ("/api/images/" ++ toString i ++ "/raw"))
          else (st, ReplaceResp.serverError ("Failed to replace image"))

/-! ### Specification-side observers

These definitions follow the spec's vocabulary (counting path/text elements
of the overlay document, the simultaneous escaping map, the move/line path
description) and are compared against the handler code above. -/

/-- Boolean test that `tag` is a prefix of the character list `l`. -/
def charsPrefix : List Char → List Char → Bool
  | [], _ => true
  | _ :: _, [] => false
  | a :: as, b :: bs => a == b && charsPrefix as bs

/-- Counts the elements of the overlay document that start with the given
tag (for instance `<path` or `<text`). -/
def countTag (tag : List Char) (doc : List String) : Nat :=
  doc.countP (fun s => charsPrefix tag s.data)

/-- Spec-side test for a stroke entry that produces a path element: it must
be a non-null stroke with a present point list of at least 2 points. -/
def strokeRendered : Option Stroke → Bool
  | none => false
  | some s =>
    match s.points with
    | none => false
    | some ps => decide (2 ≤ ps.length)

/-- Spec-side test for a text entry that produces a text element: it must be
a non-null label whose text is truthy (for a string text: non-empty). -/
def textRendered : Option TextLabel → Bool
  | none => false
  | some t => truthy t.text

/-- Spec-side rendering of one stroke entry: the path element when the entry
is valid, nothing otherwise. -/
def strokeRender : Option Stroke → Option String
  | none => none
  | some s =>
    match s.points with
    | none => none
    | some ps => if 2 ≤ ps.length then some (pathElem s ps) else none

/-- Spec-side rendering of one text entry: the text element when the entry
is valid, nothing otherwise. -/
def textRender : Option TextLabel → Option String
  | none => none
  | some t => if truthy t.text then some (textElem t) else none

/-- Spec-side simultaneous escaping of a single character: `&` becomes
`&amp;`, `<` becomes `&lt;`, any other character is left unaltered. -/
def escSpecChar (c : Char) : List Char :=
  if c = '&' then "&amp;".data else if c = '<' then "&lt;".data else [c]

/-- Spec-side description of the line commands of a path: one line command
per point, in order, and nothing else (in particular no close command). -/
def specLineCmds : List Point → String
  | [] => ("")
  | q :: rest => " L " ++ pointStr q ++ specLineCmds rest

/-! ### Helper lemmas about prefixes and the renderer -/

theorem charsPrefix_append_left (t p rest : List Char)
    (h : charsPrefix t p = true) : charsPrefix t (p ++ rest) = true := by
  induction t generalizing p with
  | nil => rfl
  | cons a as ih =>
    cases p with
    | nil => simp [charsPrefix] at h
    | cons b bs =>
      simp only [charsPrefix, Bool.and_eq_true] at h
      simpa [charsPrefix, h.1] using ih bs h.2

theorem charsPrefix_false_append_left (t p rest : List Char)
    (hl : t.length ≤ p.length) (h : charsPrefix t p = false) :
    charsPrefix t (p ++ rest) = false := by
  induction t generalizing p with
  | nil => simp [charsPrefix] at h
  | cons a as ih =>
    cases p with
    | nil => simp at hl
    | cons b bs =>
      simp only [charsPrefix, Bool.and_eq_false_iff] at h
      rcases h with h | h
      · simp [charsPrefix, h]
      · by_cases hab : a == b
        · simp only [List.cons_append, charsPrefix, hab, Bool.true_and]
          exact ih bs (by simpa using hl) h
        · simp [charsPrefix, hab]

theorem pathTag_pathElem (s : Stroke) (ps : List Point) :
    charsPrefix "<path".data (pathElem s ps).data = true := by
  simp only [pathElem, String.data_append, List.append_assoc]
  exact charsPrefix_append_left _ _ _ (by decide)

theorem textTag_pathElem (s : Stroke) (ps : List Point) :
    charsPrefix "<text".data (pathElem s ps).data = false := by
  simp only [pathElem, String.data_append, List.append_assoc]
  exact charsPrefix_false_append_left _ _ _ (by decide) (by decide)

theorem textTag_textElem (t : TextLabel) :
    charsPrefix "<text".data (textElem t).data = true := by
  simp only [textElem, String.data_append, List.append_assoc]
  exact charsPrefix_append_left _ _ _ (by decide)

theorem pathTag_textElem (t : TextLabel) :
    charsPrefix "<path".data (textElem t).data = false := by
  simp only [textElem, String.data_append, List.append_assoc]
  exact charsPrefix_false_append_left _ _ _ (by decide) (by decide)

theorem pathTag_svgHeader (w h : Nat) :
    charsPrefix "<path".data (svgHeader w h).data = false := by
  simp only [svgHeader, String.data_append, List.append_assoc]
  exact charsPrefix_false_append_left _ _ _ (by decide) (by decide)

theorem textTag_svgHeader (w h : Nat) :
    charsPrefix "<text".data (svgHeader w h).data = false := by
  simp only [svgHeader, String.data_append, List.append_assoc]
  exact charsPrefix_false_append_left _ _ _ (by decide) (by decide)

theorem strokeElems_countP_path (l : List (Option Stroke)) :
    (strokeElems l).countP (fun s => charsPrefix "<path".data s.data) =
      l.countP strokeRendered := by
  induction l with
  | nil => rfl
  | cons os rest ih =>
    cases os with
    | none => simpa [strokeElems, List.countP_cons, strokeRendered] using ih
    | some s =>
      cases hp : s.points with
      | none => simpa [strokeElems, List.countP_cons, strokeRendered, hp] using ih
      | some ps =>
        by_cases h2 : ps.length < 2
        · have : ¬ (2 ≤ ps.length) := by omega
          simp [strokeElems, hp, h2, List.countP_cons, strokeRendered, this, ih]
        · have h2le : 2 ≤ ps.length := by omega
          have hpe := pathTag_pathElem s ps
          simp [strokeElems, hp, h2, List.countP_cons, strokeRendered, h2le, ih, hpe]

theorem strokeElems_countP_text (l : List (Option Stroke)) :
    (strokeElems l).countP (fun s => charsPrefix "<text".data s.data) = 0 := by
  induction l with
  | nil => rfl
  | cons os rest ih =>
    cases os with
    | none => simpa [strokeElems] using ih
    | some s =>
      cases hp : s.points with
      | none => simpa [strokeElems, hp] using ih
      | some ps =>
        by_cases h2 : ps.length < 2
        · simpa [strokeElems, hp, h2] using ih
        · have hpe := textTag_pathElem s ps
          simp [strokeElems, hp, h2, List.countP_cons, hpe, ih]

theorem textElems_countP_text (l : List (Option TextLabel)) :
    (textElems l).countP (fun s => charsPrefix "<text".data s.data) =
      l.countP textRendered := by
  induction l with
  | nil => rfl
  | cons ot rest ih =>
    cases ot with
    | none => simpa [textElems, List.countP_cons, textRendered] using ih
    | some t =>
      by_cases ht : truthy t.text
      · have hte := textTag_textElem t
        simp [textElems, ht, List.countP_cons, textRendered, hte, ih]
      · simp [textElems, ht, List.countP_cons, textRendered, ih]

theorem textElems_countP_path (l : List (Option TextLabel)) :
    (textElems l).countP (fun s => charsPrefix "<path".data s.data) = 0 := by
  induction l with
  | nil => rfl
  | cons ot rest ih =>
    cases ot with
    | none => simpa [textElems] using ih
    | some t =>
      by_cases ht : truthy t.text
      · have hte := pathTag_textElem t
        simp [textElems, ht, List.countP_cons, hte, ih]
      · simpa [textElems, ht] using ih

theorem strokeElems_eq_filterMap (l : List (Option Stroke)) :
    strokeElems l = l.filterMap strokeRender := by
  induction l with
  | nil => rfl
  | cons os rest ih =>
    cases os with
    | none => simpa [strokeElems, strokeRender] using ih
    | some s =>
      cases hp : s.points with
      | none => simpa [strokeElems, strokeRender, hp] using ih
      | some ps =>
        by_cases h2 : ps.length < 2
        · have : ¬ (2 ≤ ps.length) := by omega
          simp [strokeElems, strokeRender, hp, h2, this, ih]
        · have : 2 ≤ ps.length := by omega
          simp [strokeElems, strokeRender, hp, h2, this, ih]

theorem textElems_eq_filterMap (l : List (Option TextLabel)) :
    textElems l = l.filterMap textRender := by
  induction l with
  | nil => rfl
  | cons ot rest ih =>
    cases ot with
    | none => simpa [textElems, textRender] using ih
    | some t =>
      by_cases ht : truthy t.text
      · simp [textElems, textRender, ht, ih]
      · simp [textElems, textRender, ht, ih]

theorem escapeChars_cons (c : Char) (l : List Char) :
    escapeChars (c :: l) = escSpecChar c ++ escapeChars l := by
  by_cases hc : c = '&'
  · subst hc
    simp [escapeChars, replacePass, escSpecChar, List.flatMap_cons, List.flatMap_append]
  · by_cases hl : c = '<'
    · subst hl
      simp [escapeChars, replacePass, escSpecChar, List.flatMap_cons, List.flatMap_append]
    · simp [escapeChars, replacePass, escSpecChar, hc, hl, List.flatMap_cons,
        List.flatMap_append]

theorem enumFrom_map_line (rest : List Point) :
    ∀ n : Nat, n ≠ 0 →
      (rest.enumFrom n).map
          (fun pi => if pi.1 = 0 then pointStr pi.2 else "L " ++ pointStr pi.2) =
        rest.map (fun q => "L " ++ pointStr q) := by
  induction rest with
  | nil => intro n _; rfl
  | cons q rest ih =>
    intro n hn
    simp only [List.enumFrom_cons, List.map_cons, if_neg hn]
    rw [ih (n + 1) (Nat.succ_ne_zero n)]

theorem joinSep_cons_map (rest : List Point) :
    ∀ a : String,
      joinSep (" ") (a :: rest.map (fun q => "L " ++ pointStr q)) =
        a ++ specLineCmds rest := by
  induction rest with
  | nil =>
    intro a
    apply String.ext
    simp [joinSep, specLineCmds, String.data_append]
  | cons q rest ih =>
    intro a
    simp only [List.map_cons, joinSep]
    rw [ih ("L " ++ pointStr q)]
    apply String.ext
    simp [specLineCmds, String.data_append]

/-- C1: for every annotation request — including bodies whose `strokes` or
`texts` fields are absent/non-arrays, which `strokesOf`/`textsOf` turn into
empty sequences rather than errors — the rendered overlay document contains
exactly one path element per stroke entry with a point list of at least two
points, and exactly one text element per text entry with truthy (for
strings: non-empty) text, however many invalid entries appear in the input
sequences. -/
theorem overlay_element_counts (w h : Nat) (body : Body) :
    countTag "<path".data (renderSvg w h (strokesOf body) (textsOf body)) =
        (strokesOf body).countP strokeRendered ∧
    countTag "<text".data (renderSvg w h (strokesOf body) (textsOf body)) =
        (textsOf body).countP textRendered := by
  have hp := pathTag_svgHeader w h
  have ht := textTag_svgHeader w h
  have hfp : charsPrefix "<path".data "</svg>".data = false := by decide
  have hft : charsPrefix "<text".data "</svg>".data = false := by decide
  constructor
  · simp [countTag, renderSvg, List.countP_append, List.countP_cons, hp, hfp,
      strokeElems_countP_path, textElems_countP_path]
  · simp [countTag, renderSvg, List.countP_append, List.countP_cons, ht, hft,
      strokeElems_countP_text, textElems_countP_text]

/-- C2: the overlay lists its elements in z-order — after the root element
come all path elements of valid strokes in request order, then all text
elements of valid labels in request order, then the closing tag; in
particular a request with valid strokes `[A, B]` and texts `[T]` renders
with A's path before B's path before T's text. -/
theorem overlay_zorder (w h : Nat) (strokes : List (Option Stroke))
    (texts : List (Option TextLabel)) (A B : Stroke) (T : TextLabel)
    (psA psB : List Point) :
    (renderSvg w h strokes texts =
        [svgHeader w h] ++ strokes.filterMap strokeRender ++
          texts.filterMap textRender ++ ["</svg>"]) ∧
    (A.points = some psA → 2 ≤ psA.length → B.points = some psB →
      2 ≤ psB.length → truthy T.text = true →
      renderSvg w h [some A, some B] [some T] =
        [svgHeader w h, pathElem A psA, pathElem B psB, textElem T, "</svg>"]) := by
  constructor
  · simp [renderSvg, strokeElems_eq_filterMap, textElems_eq_filterMap]
  · intro hA h2A hB h2B hT
    have hA2 : ¬ psA.length < 2 := by omega
    have hB2 : ¬ psB.length < 2 := by omega
    simp [renderSvg, strokeElems, textElems, hA, hB, hT, hA2, hB2]

/-- Witness for C2 at a concrete request with two valid strokes and one
valid text label. -/
theorem overlay_zorder_witness :
    (⟨some [⟨JVal.num 0, JVal.num 0⟩, ⟨JVal.num 1, JVal.num 1⟩], JVal.null,
        JVal.null⟩ : Stroke).points =
        some [⟨JVal.num 0, JVal.num 0⟩, ⟨JVal.num 1, JVal.num 1⟩] ∧
    truthy (JVal.str ("T")) = true ∧
    renderSvg 8 6
        [some ⟨some [⟨JVal.num 0, JVal.num 0⟩, ⟨JVal.num 1, JVal.num 1⟩],
            JVal.null, JVal.null⟩,
          some ⟨some [⟨JVal.num 2, JVal.num 2⟩, ⟨JVal.num 3, JVal.num 3⟩],
            JVal.null, JVal.null⟩]
        [some ⟨JVal.null, JVal.null, JVal.str ("T"), JVal.null, JVal.null⟩] =
      [svgHeader 8 6,
        pathElem ⟨some [⟨JVal.num 0, JVal.num 0⟩, ⟨JVal.num 1, JVal.num 1⟩],
            JVal.null, JVal.null⟩
          [⟨JVal.num 0, JVal.num 0⟩, ⟨JVal.num 1, JVal.num 1⟩],
        pathElem ⟨some [⟨JVal.num 2, JVal.num 2⟩, ⟨JVal.num 3, JVal.num 3⟩],
            JVal.null, JVal.null⟩
          [⟨JVal.num 2, JVal.num 2⟩, ⟨JVal.num 3, JVal.num 3⟩],
        textElem ⟨JVal.null, JVal.null, JVal.str ("T"), JVal.null, JVal.null⟩,
        "</svg>"] :=
  ⟨rfl, by decide,
    (overlay_zorder 8 6 [] [] _ _ _ _ _).2 rfl (by decide) rfl (by decide) (by decide)⟩

/-- C6: the handler's sequential escaping (`&` globally first, then `<`)
replaces every `&` by `&amp;` and every `<` by `&lt;` and alters no other
character (it equals the simultaneous per-character substitution); in
particular the label content `A&B<C` renders as `A&amp;B&lt;C`. -/
theorem text_escaping_correct :
    (∀ l : List Char, escapeChars l = l.flatMap escSpecChar) ∧
    escapeString ("A&B<C") = "A&amp;B&lt;C" := by
  constructor
  · intro l
    induction l with
    | nil => rfl
    | cons c l ih => rw [escapeChars_cons, ih, List.flatMap_cons]
  · rfl

/-- C8: for a stroke with at least two points, the path's `d` attribute is a
single move command to the first point followed by one line command per
subsequent point in order, with no closing command, and the path element
carries `fill="none"`, round line caps and round line joins. -/
theorem stroke_path_geometry (s : Stroke) (p q : Point) (rest : List Point) :
    dString (p :: q :: rest) = "M " ++ pointStr p ++ specLineCmds (q :: rest) ∧
    pathElem s (p :: q :: rest) =
      "<path d=\"" ++ dString (p :: q :: rest) ++ "\" fill=\"none\" stroke=\"" ++
        jstr (jsOr s.color (JVal.str ("#ff0000"))) ++ "\" stroke-width=\"" ++
        jstr (jsOr s.width (JVal.num 4)) ++
        "\" stroke-linecap=\"round\" stroke-linejoin=\"round\" />" := by
  constructor
  · have h1 : dString (p :: q :: rest) =
        "M " ++ joinSep (" ")
          (pointStr p :: ((q :: rest).enumFrom 1).map
            (fun pi => if pi.1 = 0 then pointStr pi.2 else "L " ++ pointStr pi.2)) := rfl
    rw [h1, enumFrom_map_line (q :: rest) 1 Nat.one_ne_zero,
      joinSep_cons_map (q :: rest) (pointStr p)]
    apply String.ext
    simp [String.data_append]
  · rfl

/-! ### Helper lemmas about the store -/

theorem find?_append_none {α : Type} (p : α → Bool) (l₁ l₂ : List α)
    (h : l₁.find? p = none) : (l₁ ++ l₂).find? p = l₂.find? p := by
  induction l₁ with
  | nil => rfl
  | cons a l ih =>
    by_cases hpa : p a
    · simp [List.find?_cons_of_pos _ hpa] at h
    · rw [List.cons_append, List.find?_cons_of_neg _ hpa]
      rw [List.find?_cons_of_neg _ hpa] at h
      exact ih h

theorem find?_append_some {α : Type} (p : α → Bool) (l₁ l₂ : List α) (a : α)
    (h : l₁.find? p = some a) : (l₁ ++ l₂).find? p = some a := by
  induction l₁ with
  | nil => simp at h
  | cons b l ih =>
    by_cases hpb : p b
    · rw [List.find?_cons_of_pos _ hpb] at h
      rw [List.cons_append, List.find?_cons_of_pos _ hpb]
      exact h
    · rw [List.find?_cons_of_neg _ hpb] at h
      rw [List.cons_append, List.find?_cons_of_neg _ hpb]
      exact ih h

theorem find?_map_pred {A B : Type} (f : A → B) (p : B → Bool) (q : A → Bool)
    (l : List A) (hpq : ∀ a, p (f a) = q a) :
    (l.map f).find? p = (l.find? q).map f := by
  induction l with
  | nil => rfl
  | cons a l ih =>
    cases hq : q a with
    | true =>
      rw [List.map_cons, List.find?_cons_of_pos _ (by rw [hpq a, hq]),
        List.find?_cons_of_pos _ hq]
      rfl
    | false =>
      rw [List.map_cons, List.find?_cons_of_neg _ (by simp [hpq a, hq]),
        List.find?_cons_of_neg _ (by simp [hq]), ih]

theorem updateImg_find (st : Store) (i j : Int) (ct : String) (d : Bytes)
    (name : Option String) :
    findImg (updateImg st i ct d name) j =
      (findImg st j).map (fun r =>
        if (r.id : Int) == i then
          { r with content_type := ct, data := d, original_name := name }
        else r) := by
  cases st with
  | mk imgs next =>
    simp only [updateImg, findImg]
    apply find?_map_pred
    intro a
    by_cases ha : ((a.id : Int) == i) = true
    · simp [ha]
    · simp [ha]

theorem updateImg_idem (st : Store) (i : Int) (ct : String) (d : Bytes)
    (name : Option String) :
    updateImg (updateImg st i ct d name) i ct d name =
      updateImg st i ct d name := by
  cases st with
  | mk imgs next =>
    simp only [updateImg, Store.mk.injEq, and_true, List.map_map]
    apply List.map_congr_left
    intro r _
    by_cases hri : ((r.id : Int) == i) = true
    · simp [Function.comp, hri]
    · simp [Function.comp, hri]

theorem updateImg_id_parent (st : Store) (i : Int) (ct : String) (d : Bytes)
    (name : Option String) :
    (updateImg st i ct d name).images.map (fun x => (x.id, x.original_image_id)) =
      st.images.map (fun x => (x.id, x.original_image_id)) := by
  cases st with
  | mk imgs next =>
    simp only [updateImg, List.map_map]
    apply List.map_congr_left
    intro r _
    by_cases hri : ((r.id : Int) == i) = true
    · simp [Function.comp, hri]
    · simp [Function.comp, hri]

/-- C4: whenever the annotate operation does not answer 201 (source lookup,
metadata probe, composite or DB insert failed, or the id was malformed), it
reports a single error response and the store is exactly what it was before
the call: no record was created and none was modified. -/
theorem annotate_failure_atomic (env : Env) (st : Store) (idp : NumParam)
    (body : Body) (h : (annotate env st idp body).2.isCreated = false) :
    (annotate env st idp body).1 = st := by
  cases idp with
  | nan => rfl
  | num i =>
    cases hf : findImg st i with
    | none => simp [annotate, hf]
    | some r =>
      cases hm : env.metadata r.data with
      | none => simp [annotate, hf, hm]
      | some meta =>
        cases hc : env.composite r.data
            (overlayString meta (strokesOf body) (textsOf body)) with
        | none => simp [annotate, hf, hm, hc]
        | some ann =>
          cases hdb : env.dbWriteOk with
          | false => simp [annotate, hf, hm, hc, hdb]
          | true =>
            simp [annotate, hf, hm, hc, hdb, AnnotateResp.isCreated] at h

/-- Witness for C4: a concrete annotate call on an empty store fails (404
path) and leaves the store unchanged. -/
theorem annotate_failure_atomic_witness :
    (annotate ⟨fun _ => none, fun _ _ => none, fun _ => none, true⟩ ⟨[], 1⟩
        (NumParam.num 1) ⟨none, none⟩).2.isCreated = false ∧
    (annotate ⟨fun _ => none, fun _ _ => none, fun _ => none, true⟩ ⟨[], 1⟩
        (NumParam.num 1) ⟨none, none⟩).1 = ⟨[], 1⟩ :=
  ⟨rfl, annotate_failure_atomic _ _ _ _ rfl⟩

/-- C9: a malformed id yields the 400 "Invalid image id" answer with the
store untouched (no lookup happens: the answer is the same for every store);
an id that resolves to no record yields the 404 "Image not found" answer
rather than a crash; a successful annotate answers 201 with the new id, its
retrieval url and the source id. -/
theorem annotate_http_statuses :
    (∀ env st body, annotate env st NumParam.nan body =
        (st, AnnotateResp.badRequest ("Invalid image id"))) ∧
    (∀ env st body i, findImg st i = none →
        annotate env st (NumParam.num i) body =
          (st, AnnotateResp.notFound ("Image not found"))) ∧
    (∀ env st body i r meta ann,
        findImg st i = some r →
        env.metadata r.data = some meta →
        env.composite r.data (overlayString meta (strokesOf body) (textsOf body)) =
          some ann →
        env.dbWriteOk = true →
        annotate env st (NumParam.num i) body =
          ((insertImg st ("image/png") (jsStrOrNull r.original_name) ann (some i)).1,
            AnnotateResp.created st.nextId
              ("/api/images/" ++ toString st.nextId ++ "/raw") i)) := by
  refine ⟨fun env st body => rfl, fun env st body i hf => by simp [annotate, hf], ?_⟩
  intro env st body i r meta ann hf hm hc hdb
  simp [annotate, hf, hm, hc, hdb, insertImg]

/-- Witness for C9 on a one-record store: 400 for a malformed id, 404 for
the unknown id 7, 201 for the existing id 1. -/
theorem annotate_http_statuses_witness :
    annotate ⟨fun _ => some ⟨some 2, some 2⟩, fun _ _ => some [9], fun _ => none, true⟩
        ⟨[⟨1, ("image/png"), none, [0], none⟩], 2⟩ NumParam.nan ⟨none, none⟩ =
      (⟨[⟨1, ("image/png"), none, [0], none⟩], 2⟩,
        AnnotateResp.badRequest ("Invalid image id")) ∧
    annotate ⟨fun _ => some ⟨some 2, some 2⟩, fun _ _ => some [9], fun _ => none, true⟩
        ⟨[⟨1, ("image/png"), none, [0], none⟩], 2⟩ (NumParam.num 7) ⟨none, none⟩ =
      (⟨[⟨1, ("image/png"), none, [0], none⟩], 2⟩,
        AnnotateResp.notFound ("Image not found")) ∧
    annotate ⟨fun _ => some ⟨some 2, some 2⟩, fun _ _ => some [9], fun _ => none, true⟩
        ⟨[⟨1, ("image/png"), none, [0], none⟩], 2⟩ (NumParam.num 1) ⟨none, none⟩ =
      ((insertImg ⟨[⟨1, ("image/png"), none, [0], none⟩], 2⟩ ("image/png")
          (jsStrOrNull none) [9] (some 1)).1,
        AnnotateResp.created 2 ("/api/images/" ++ toString 2 ++ "/raw") 1) :=
  ⟨annotate_http_statuses.1 _ _ _,
    annotate_http_statuses.2.1 _ _ _ 7 rfl,
    annotate_http_statuses.2.2 _ _ _ 1 ⟨1, ("image/png"), none, [0], none⟩
      ⟨some 2, some 2⟩ [9] rfl rfl rfl rfl⟩

/-- C3: a successful annotate on an existing source record returns a fresh
id different from the source id, stores a new record whose parent link
equals the source id, whose name is inherited from the source (empty names
becoming null), and whose content type is the canonical `image/png`; the
source record itself — id, bytes and metadata — is still found unchanged
afterwards.  The hypothesis on `st` is the auto-increment invariant: every
existing row id is below the counter. -/
theorem annotate_creates_linked_record (env : Env) (st : Store) (i : Int)
    (body : Body) (r : ImageRecord) (meta : Meta) (ann : Bytes)
    (hwf : ∀ x ∈ st.images, x.id < st.nextId)
    (hf : findImg st i = some r)
    (hm : env.metadata r.data = some meta)
    (hc : env.composite r.data (overlayString meta (strokesOf body) (textsOf body)) =
      some ann)
    (hdb : env.dbWriteOk = true) :
    (annotate env st (NumParam.num i) body).2 =
        AnnotateResp.created st.nextId
          ("/api/images/" ++ toString st.nextId ++ "/raw") i ∧
    (st.nextId : Int) ≠ i ∧
    findImg (annotate env st (NumParam.num i) body).1 (st.nextId : Int) =
        some ⟨st.nextId, ("image/png"), jsStrOrNull r.original_name, ann, some i⟩ ∧
    findImg (annotate env st (NumParam.num i) body).1 i = some r := by
  have hf' : st.images.find? (fun x => (x.id : Int) == i) = some r := hf
  have hmem : r ∈ st.images := List.mem_of_find?_eq_some hf'
  have hpred := List.find?_some hf'
  have hid : (r.id : Int) = i := by simpa using hpred
  have hlt : r.id < st.nextId := hwf r hmem
  have hst : (annotate env st (NumParam.num i) body).1 =
      ⟨st.images ++
          [⟨st.nextId, ("image/png"), jsStrOrNull r.original_name, ann, some i⟩],
        st.nextId + 1⟩ := by
    simp [annotate, hf, hm, hc, hdb, insertImg]
  refine ⟨by simp [annotate, hf, hm, hc, hdb, insertImg], by omega, ?_, ?_⟩
  · rw [hst]
    unfold findImg
    rw [find?_append_none]
    · simp
    · rw [List.find?_eq_none]
      intro x hx
      have := hwf x hx
      simp only [beq_iff_eq]
      intro hcontra
      omega
  · rw [hst]
    unfold findImg
    exact find?_append_some _ _ _ _ hf

/-- Witness for C3 on a concrete one-record store with a well-formed
auto-increment counter. -/
theorem annotate_creates_linked_record_witness :
    (∀ x ∈ (⟨[⟨1, ("image/png"), some ("cat.png"), [0], none⟩], 2⟩ : Store).images,
        x.id < 2) ∧
    (annotate ⟨fun _ => some ⟨some 3, some 3⟩, fun _ _ => some [7], fun _ => none, true⟩
        ⟨[⟨1, ("image/png"), some ("cat.png"), [0], none⟩], 2⟩
        (NumParam.num 1) ⟨none, none⟩).2 =
      AnnotateResp.created 2 ("/api/images/" ++ toString 2 ++ "/raw") 1 ∧
    ((2 : Nat) : Int) ≠ 1 ∧
    findImg (annotate ⟨fun _ => some ⟨some 3, some 3⟩, fun _ _ => some [7],
          fun _ => none, true⟩
        ⟨[⟨1, ("image/png"), some ("cat.png"), [0], none⟩], 2⟩
        (NumParam.num 1) ⟨none, none⟩).1 ((2 : Nat) : Int) =
      some ⟨2, ("image/png"), jsStrOrNull (some ("cat.png")), [7], some 1⟩ ∧
    findImg (annotate ⟨fun _ => some ⟨some 3, some 3⟩, fun _ _ => some [7],
          fun _ => none, true⟩
        ⟨[⟨1, ("image/png"), some ("cat.png"), [0], none⟩], 2⟩
        (NumParam.num 1) ⟨none, none⟩).1 1 =
      some ⟨1, ("image/png"), some ("cat.png"), [0], none⟩ := by
  refine ⟨by decide, ?_⟩
  exact annotate_creates_linked_record _ _ 1 _
    ⟨1, ("image/png"), some ("cat.png"), [0], none⟩ ⟨some 3, some 3⟩ [7]
    (by decide) rfl rfl rfl rfl

/-- C5: replace never changes any row's id or parent link (in every branch
of the handler), and, on an existing id with the same upload, replacing
twice is idempotent in content: both calls answer 200 with the same id, the
second call leaves the store exactly as after the first, and the stored
bytes under the id are the re-encoded upload. -/
theorem replace_idempotent :
    (∀ env st idp file,
        (replaceImg env st idp file).1.images.map
            (fun x => (x.id, x.original_image_id)) =
          st.images.map (fun x => (x.id, x.original_image_id))) ∧
    (∀ env st i f r png, env.dbWriteOk = true → findImg st i = some r →
        env.encode f.buffer = some png →
        (replaceImg env st (NumParam.num i) (some f)).2 =
            ReplaceResp.ok i ("/api/images/" ++ toString i ++ "/raw") ∧
        (replaceImg env (replaceImg env st (NumParam.num i) (some f)).1
              (NumParam.num i) (some f)).2 =
            ReplaceResp.ok i ("/api/images/" ++ toString i ++ "/raw") ∧
        (replaceImg env (replaceImg env st (NumParam.num i) (some f)).1
              (NumParam.num i) (some f)).1 =
          (replaceImg env st (NumParam.num i) (some f)).1 ∧
        (findImg (replaceImg env st (NumParam.num i) (some f)).1 i).map
            (fun x => x.data) = some png) := by
  constructor
  · intro env st idp file
    cases idp with
    | nan => rfl
    | num i =>
      cases file with
      | none => rfl
      | some f =>
        cases hf : findImg st i with
        | none => simp [replaceImg, hf]
        | some r =>
          cases he : env.encode f.buffer with
          | none => simp [replaceImg, hf, he]
          | some png =>
            cases hdb : env.dbWriteOk with
            | false => simp [replaceImg, hf, he, hdb]
            | true =>
              simp only [replaceImg, hf, he, hdb, if_true]
              exact updateImg_id_parent st i _ png _
  · intro env st i f r png hdb hf he
    have hf' : st.images.find? (fun x => (x.id : Int) == i) = some r := hf
    have hpred := List.find?_some hf'
    have h1 : replaceImg env st (NumParam.num i) (some f) =
        (updateImg st i ("image/png") png
            (some ((jsStrOrNull f.originalname).getD ("edited.png"))),
          ReplaceResp.ok i ("/api/images/" ++ toString i ++ "/raw")) := by
      simp [replaceImg, hf, he, hdb]
    have hfind1 : findImg (updateImg st i ("image/png") png
        (some ((jsStrOrNull f.originalname).getD ("edited.png")))) i =
        some { r with
                content_type := ("image/png"),
                data := png,
                original_name :=
                  some ((jsStrOrNull f.originalname).getD ("edited.png")) } := by
      rw [updateImg_find, hf]
      have hid : (r.id : Int) = i := by simpa using hpred
      simp [hid]
    have h2 : replaceImg env (updateImg st i ("image/png") png
          (some ((jsStrOrNull f.originalname).getD ("edited.png"))))
          (NumParam.num i) (some f) =
        (updateImg (updateImg st i ("image/png") png
            (some ((jsStrOrNull f.originalname).getD ("edited.png")))) i
            ("image/png") png
            (some ((jsStrOrNull f.originalname).getD ("edited.png"))),
          ReplaceResp.ok i ("/api/images/" ++ toString i ++ "/raw")) := by
      simp [replaceImg, hfind1, he, hdb]
    refine ⟨by rw [h1], ?_, ?_, ?_⟩
    · rw [h1]
      simp only [h2]
    · rw [h1]
      simp only [h2, updateImg_idem]
    · rw [h1]
      rw [hfind1]
      rfl

/-- Witness for C5 on a concrete one-record store with a concrete upload. -/
theorem replace_idempotent_witness :
    (⟨fun _ => none, fun _ _ => none, fun b => some b, true⟩ : Env).dbWriteOk = true ∧
    findImg ⟨[⟨1, ("image/png"), none, [0], none⟩], 2⟩ 1 =
      some ⟨1, ("image/png"), none, [0], none⟩ ∧
    (replaceImg ⟨fun _ => none, fun _ _ => none, fun b => some b, true⟩
        ⟨[⟨1, ("image/png"), none, [0], none⟩], 2⟩ (NumParam.num 1)
        (some ⟨[5, 5], some ("new.png")⟩)).2 =
      ReplaceResp.ok 1 ("/api/images/" ++ toString 1 ++ "/raw") ∧
    (replaceImg ⟨fun _ => none, fun _ _ => none, fun b => some b, true⟩
        (replaceImg ⟨fun _ => none, fun _ _ => none, fun b => some b, true⟩
          ⟨[⟨1, ("image/png"), none, [0], none⟩], 2⟩ (NumParam.num 1)
          (some ⟨[5, 5], some ("new.png")⟩)).1 (NumParam.num 1)
        (some ⟨[5, 5], some ("new.png")⟩)).1 =
      (replaceImg ⟨fun _ => none, fun _ _ => none, fun b => some b, true⟩
        ⟨[⟨1, ("image/png"), none, [0], none⟩], 2⟩ (NumParam.num 1)
        (some ⟨[5, 5], some ("new.png")⟩)).1 := by
  refine ⟨rfl, rfl, ?_, ?_⟩
  · exact (replace_idempotent.2 ⟨fun _ => none, fun _ _ => none, fun b => some b, true⟩
      ⟨[⟨1, ("image/png"), none, [0], none⟩], 2⟩ 1 ⟨[5, 5], some ("new.png")⟩
      ⟨1, ("image/png"), none, [0], none⟩ [5, 5] rfl rfl rfl).1
  · exact (replace_idempotent.2 ⟨fun _ => none, fun _ _ => none, fun b => some b, true⟩
      ⟨[⟨1, ("image/png"), none, [0], none⟩], 2⟩ 1 ⟨[5, 5], some ("new.png")⟩
      ⟨1, ("image/png"), none, [0], none⟩ [5, 5] rfl rfl rfl).2.2.1

/-- C7: the overlay's coordinate frame is exactly the decoded source
dimensions when they are available (and nonzero, as `||` demands), the
canvas is exactly 1024×768 when the metadata carries no dimensions, the
document's first element is the root element carrying those dimensions, and
a source whose metadata has no dimensions still annotates successfully —
the pipeline never fails purely because of missing metadata. -/
theorem overlay_canvas_dimensions :
    (∀ meta strokes texts w h, meta.width = some w → w ≠ 0 →
        meta.height = some h → h ≠ 0 →
        overlayString meta strokes texts = String.join (renderSvg w h strokes texts)) ∧
    (∀ meta strokes texts, meta.width = none → meta.height = none →
        overlayString meta strokes texts =
          String.join (renderSvg 1024 768 strokes texts)) ∧
    (∀ w h strokes texts,
        (renderSvg w h strokes texts).head? = some (svgHeader w h)) ∧
    (∀ env st i body r ann, findImg st i = some r →
        env.metadata r.data = some ⟨none, none⟩ →
        env.composite r.data
            (overlayString ⟨none, none⟩ (strokesOf body) (textsOf body)) = some ann →
        env.dbWriteOk = true →
        ((annotate env st (NumParam.num i) body).2).isCreated = true) := by
  refine ⟨?_, ?_, ?_, ?_⟩
  · intro meta strokes texts w h hw hw0 hh hh0
    simp [overlayString, dimOr, hw, hh, hw0, hh0]
  · intro meta strokes texts hw hh
    simp [overlayString, dimOr, hw, hh]
  · intro w h strokes texts
    simp [renderSvg]
  · intro env st i body r ann hf hm hc hdb
    simp [annotate, hf, hm, hc, hdb, AnnotateResp.isCreated]

/-- Witness for C7: a 3×5 metadata keeps its frame, a dimensionless
metadata falls back to 1024×768, and a concrete dimensionless source still
annotates with a 201. -/
theorem overlay_canvas_dimensions_witness :
    overlayString ⟨some 3, some 5⟩ [] [] = String.join (renderSvg 3 5 [] []) ∧
    overlayString ⟨none, none⟩ [] [] = String.join (renderSvg 1024 768 [] []) ∧
    (renderSvg 3 5 [] []).head? = some (svgHeader 3 5) ∧
    ((annotate ⟨fun _ => some ⟨none, none⟩, fun _ _ => some [7], fun _ => none, true⟩
        ⟨[⟨1, ("image/png"), none, [0], none⟩], 2⟩
        (NumParam.num 1) ⟨none, none⟩).2).isCreated = true :=
  ⟨overlay_canvas_dimensions.1 ⟨some 3, some 5⟩ [] [] 3 5 rfl (by decide) rfl (by decide),
    overlay_canvas_dimensions.2.1 ⟨none, none⟩ [] [] rfl rfl,
    overlay_canvas_dimensions.2.2.1 3 5 [] [],
    overlay_canvas_dimensions.2.2.2 _ _ 1 _ ⟨1, ("image/png"), none, [0], none⟩ [7]
      rfl rfl rfl rfl⟩

/-- C10: the stroke/text attribute defaults substitute on any falsy value,
not only on absence — width `0` renders as the default `4`, fontSize `0`
renders as the default `24`, and a label whose text is the falsy number `0`
is skipped entirely — while the text coordinates default via nullish
substitution: `x = 0` keeps `0` and only a null/absent coordinate becomes
`20`. -/
theorem falsy_vs_nullish_defaults :
    (∀ s ps, s.width = JVal.num 0 →
        pathElem s ps = pathElem { s with width := JVal.num 4 } ps) ∧
    (∀ t, t.fontSize = JVal.num 0 →
        textElem t = textElem { t with fontSize := JVal.num 24 }) ∧
    (∀ t, t.text = JVal.num 0 → textElems [some t] = []) ∧
    (∀ t : TextLabel, t.x = JVal.num 0 → jstr (jsNullish t.x (JVal.num 20)) = "0") ∧
    (∀ t : TextLabel, t.y = JVal.num 0 → jstr (jsNullish t.y (JVal.num 20)) = "0") ∧
    (∀ t : TextLabel, t.x = JVal.null → jstr (jsNullish t.x (JVal.num 20)) = "20") ∧
    jsOr (JVal.num 0) (JVal.num 4) = JVal.num 4 ∧
    jsOr (JVal.num 0) (JVal.num 24) = JVal.num 24 := by
  refine ⟨?_, ?_, ?_, ?_, ?_, ?_, by decide, by decide⟩
  · intro s ps hw
    simp [pathElem, jsOr, truthy, hw]
  · intro t hfs
    simp [textElem, jsOr, truthy, hfs]
  · intro t htext
    simp [textElems, truthy, htext]
  · intro t hx
    simp [jsNullish, jstr, hx]
    rfl
  · intro t hy
    simp [jsNullish, jstr, hy]
    rfl
  · intro t hx
    simp [jsNullish, jstr, hx]
    rfl

/-- Witness for C10 at concrete strokes and labels. -/
theorem falsy_vs_nullish_defaults_witness :
    pathElem ⟨some [], JVal.null, JVal.num 0⟩ [] =
      pathElem ⟨some [], JVal.null, JVal.num 4⟩ [] ∧
    textElem ⟨JVal.null, JVal.null, JVal.str ("a"), JVal.null, JVal.num 0⟩ =
      textElem ⟨JVal.null, JVal.null, JVal.str ("a"), JVal.null, JVal.num 24⟩ ∧
    textElems [some ⟨JVal.null, JVal.null, JVal.num 0, JVal.null, JVal.null⟩] = [] ∧
    jstr (jsNullish (⟨JVal.num 0, JVal.null, JVal.str ("a"), JVal.null,
        JVal.null⟩ : TextLabel).x (JVal.num 20)) = "0" ∧
    jstr (jsNullish (⟨JVal.null, JVal.null, JVal.str ("a"), JVal.null,
        JVal.null⟩ : TextLabel).x (JVal.num 20)) = "20" :=
  ⟨falsy_vs_nullish_defaults.1 ⟨some [], JVal.null, JVal.num 0⟩ [] rfl,
    falsy_vs_nullish_defaults.2.1 ⟨JVal.null, JVal.null, JVal.str ("a"), JVal.null,
      JVal.num 0⟩ rfl,
    falsy_vs_nullish_defaults.2.2.1 ⟨JVal.null, JVal.null, JVal.num 0, JVal.null,
      JVal.null⟩ rfl,
    falsy_vs_nullish_defaults.2.2.2.1 ⟨JVal.num 0, JVal.null, JVal.str ("a"),
      JVal.null, JVal.null⟩ rfl,
    falsy_vs_nullish_defaults.2.2.2.2.2.1 ⟨JVal.null, JVal.null, JVal.str ("a"),
      JVal.null, JVal.null⟩ rfl⟩

end ImageService
